import Mathlib

/-!
Verification of the in-process model cache (`ModelLoader` in
`app/core/model_loader.py`) of the ML-Model-Serving-Platform repository.

The Python cache is a plain `dict[str, Any]`, which preserves insertion
order.  We embed it as an association list in insertion order, with the
dict operations used by the source (`in`/lookup, `d[k] = v`, `del d[k]`,
`next(iter(d))` = first key).  `load_model` is embedded as a pure function
from the loader state and an environment describing the outcome of the
external effects (path existence check, joblib deserialization, pickle
deserialization) to the new state, a result (`ok` model or the raised
error), and the list of backend calls the execution performed.
-/

namespace MLServing

/-- Lookup in a Python dict embedded as an insertion-ordered association
list: the value at the first (and, keys being unique, only) binding. -/
def dictLookup {α : Type} (d : List (String × α)) (k : String) : Option α :=
  match d with
  | [] => none
  | (k', v) :: rest => if k' = k then some v else dictLookup rest k

/-- Python `k in d`. -/
def dictContains {α : Type} (d : List (String × α)) (k : String) : Bool :=
  (dictLookup d k).isSome

/-- Python `d[k] = v`: update in place (keeping the position) if the key is
present, append at the most-recently-inserted end otherwise. -/
def dictInsert {α : Type} (d : List (String × α)) (k : String) (v : α) :
    List (String × α) :=
  match d with
  | [] => [(k, v)]
  | (k', v') :: rest =>
      if k' = k then (k', v) :: rest else (k', v') :: dictInsert rest k v

/-- Python `del d[k]` (for dicts with unique keys this removes the single
binding of `k`; our version removes every binding of `k`). -/
def dictDelete {α : Type} (d : List (String × α)) (k : String) :
    List (String × α) :=
  match d with
  | [] => []
  | (k', v') :: rest =>
      if k' = k then dictDelete rest k else (k', v') :: dictDelete rest k

/-- The `ModelLoader` state: `cache_size` fixed at construction and the
`_cache` dict. -/
structure ModelLoader (α : Type) where
  cache_size : Nat
  cache : List (String × α)
deriving Repr

/-- `ModelLoader.__init__`: the given capacity and an empty cache. -/
def mkModelLoader (α : Type) (cache_size : Nat) : ModelLoader α :=
  ⟨cache_size, []⟩

/-- The exceptions `load_model` can raise: `FileNotFoundError`, the
`Exception` raised when both deserializers fail, and the `StopIteration`
that `next(iter(d))` raises on an empty dict inside `_add_to_cache`. -/
inductive LoadError where
  | fileNotFound (msg : String)
  | bothFailed (msg : String)
  | stopIteration
deriving DecidableEq, Repr

/-- External backend calls a `load_model` execution can perform. -/
inductive BackendEvent where
  | pathCheck
  | joblibLoad
  | pickleLoad
deriving DecidableEq, Repr

/-- The environment of one `load_model` call: what the filesystem check
and the two deserialization backends would return if invoked. -/
structure LoadEnv (α : Type) where
  path_exists : Bool
  joblib_result : Except String α
  pickle_result : Except String α

/-- Result of a `load_model` call: the post-state, the returned model or
raised error, and the backend calls performed, in order. -/
structure LoadResult (α : Type) where
  loader : ModelLoader α
  result : Except LoadError α
  events : List BackendEvent

/-- `ModelLoader._add_to_cache`: if `len(self._cache) >= self.cache_size`,
delete `next(iter(self._cache))` (the oldest-inserted key; on an empty
dict `next` raises `StopIteration`, before any mutation), then insert.
Returns the new state and the raised error, if any. -/
def ModelLoader._add_to_cache {α : Type} (l : ModelLoader α)
    (model_id : String) (model : α) : ModelLoader α × Option LoadError :=
  if l.cache_size ≤ l.cache.length then
    match l.cache with
    | [] => (l, some .stopIteration)
    | (oldest_key, _) :: _ =>
        (⟨l.cache_size, dictInsert (dictDelete l.cache oldest_key) model_id model⟩,
         none)
  else
    (⟨l.cache_size, dictInsert l.cache model_id model⟩, none)

/-- `ModelLoader.load_model`: return the cached model on a hit (no backend
call, no state change); otherwise check the path, try joblib, fall back to
pickle, and on success `_add_to_cache`.  Every raised error propagates to
the caller unchanged (the outer `except` clause logs and re-raises). -/
def ModelLoader.load_model {α : Type} (l : ModelLoader α) (env : LoadEnv α)
    (file_path model_id : String) : LoadResult α :=
  match dictLookup l.cache model_id with
  | some m => ⟨l, .ok m, []⟩
  | none =>
      if env.path_exists = false then
        ⟨l, .error (.fileNotFound ("Model file not found: " ++ file_path)),
         [.pathCheck]⟩
      else
        match env.joblib_result with
        | .ok model =>
            let r := l._add_to_cache model_id model
            match r.2 with
            | none => ⟨r.1, .ok model, [.pathCheck, .joblibLoad]⟩
            | some e => ⟨r.1, .error e, [.pathCheck, .joblibLoad]⟩
        | .error joblib_error =>
            match env.pickle_result with
            | .ok model =>
                let r := l._add_to_cache model_id model
                match r.2 with
                | none => ⟨r.1, .ok model, [.pathCheck, .joblibLoad, .pickleLoad]⟩
                | some e => ⟨r.1, .error e, [.pathCheck, .joblibLoad, .pickleLoad]⟩
            | .error pickle_error =>
                ⟨l,
                 .error (.bothFailed
                   ("Failed to load model with both joblib and pickle. Joblib: "
                     ++ joblib_error ++ ", Pickle: " ++ pickle_error)),
                 [.pathCheck, .joblibLoad, .pickleLoad]⟩

/-- `ModelLoader.clear_cache`: `self._cache.clear()`. -/
def ModelLoader.clear_cache {α : Type} (l : ModelLoader α) : ModelLoader α :=
  ⟨l.cache_size, []⟩

/-- `ModelLoader.remove_from_cache`: delete the entry if present, no-op
otherwise. -/
def ModelLoader.remove_from_cache {α : Type} (l : ModelLoader α)
    (model_id : String) : ModelLoader α :=
  if dictContains l.cache model_id then
    ⟨l.cache_size, dictDelete l.cache model_id⟩
  else
    l

/-- `ModelLoader.is_model_cached`: `model_id in self._cache`. -/
def ModelLoader.is_model_cached {α : Type} (l : ModelLoader α)
    (model_id : String) : Bool :=
  dictContains l.cache model_id

/-- The keys of the cache in insertion order. -/
def cacheKeys {α : Type} (l : ModelLoader α) : List String :=
  l.cache.map Prod.fst

/-- One public mutating call on the loader. -/
inductive Op (α : Type) where
  | load (env : LoadEnv α) (file_path model_id : String)
  | remove (model_id : String)
  | clear

/-- Run one call, keeping the state it leaves behind (a raised error leaves
the state the call reached, which for every error path is the pre-state). -/
def runOp {α : Type} (l : ModelLoader α) : Op α → ModelLoader α
  | .load env fp mid => (l.load_model env fp mid).loader
  | .remove mid => l.remove_from_cache mid
  | .clear => l.clear_cache

/-- Run a sequence of calls. -/
def runOps {α : Type} (l : ModelLoader α) (ops : List (Op α)) : ModelLoader α :=
  ops.foldl runOp l

/-- An environment in which every backend succeeds and yields `m`. -/
def envOk (m : Nat) : LoadEnv Nat :=
  ⟨true, .ok m, .ok m⟩

/-- The load succeeds: the path exists and a deserializer succeeds. -/
def loadSucceeds {α : Type} (env : LoadEnv α) : Prop :=
  env.path_exists = true ∧
    (env.joblib_result.isOk = true ∨ env.pickle_result.isOk = true)

/-- The model a successful miss-path load produces: joblib's if joblib
succeeds, else pickle's. -/
def loadedModel {α : Type} (env : LoadEnv α) : Option α :=
  match env.joblib_result with
  | .ok m => some m
  | .error _ =>
      match env.pickle_result with
      | .ok m => some m
      | .error _ => none

/-- Stated from the spec (claim C3): one step of the bounded FIFO
(insertion-order) key list.  A hit leaves the keys unchanged; a successful
miss at capacity drops the oldest-inserted key and appends the new one; a
successful miss below capacity just appends. -/
def fifoKeysStep (cap : Nat) (keys : List String) (mid : String) :
    List String :=
  if mid ∈ keys then keys
  else if cap ≤ keys.length then keys.drop 1 ++ [mid]
  else keys ++ [mid]

/-! ### Dictionary lemmas -/

theorem dictLookup_dictInsert_self {α : Type} (d : List (String × α))
    (k : String) (v : α) : dictLookup (dictInsert d k v) k = some v := by
  induction d with
  | nil => simp [dictInsert, dictLookup]
  | cons p rest ih =>
      obtain ⟨k', v'⟩ := p
      by_cases h : k' = k
      · subst h; simp [dictInsert, dictLookup]
      · simp [dictInsert, dictLookup, h, ih]

theorem dictInsert_of_lookup_none {α : Type} (d : List (String × α))
    (k : String) (v : α) (h : dictLookup d k = none) :
    dictInsert d k v = d ++ [(k, v)] := by
  induction d with
  | nil => simp [dictInsert]
  | cons p rest ih =>
      obtain ⟨k', v'⟩ := p
      by_cases hk : k' = k
      · simp [dictLookup, hk] at h
      · simp [dictLookup, hk] at h
        simp [dictInsert, hk, ih h]

theorem dictLookup_eq_none_iff {α : Type} (d : List (String × α))
    (k : String) : dictLookup d k = none ↔ k ∉ d.map Prod.fst := by
  induction d with
  | nil => simp [dictLookup]
  | cons p rest ih =>
      obtain ⟨k', v'⟩ := p
      by_cases hk : k' = k
      · subst hk; simp [dictLookup]
      · simp [dictLookup, hk, ih]
        intro h
        exact fun hc => hk hc.symm

theorem dictInsert_length_le {α : Type} (d : List (String × α))
    (k : String) (v : α) : (dictInsert d k v).length ≤ d.length + 1 := by
  induction d with
  | nil => simp [dictInsert]
  | cons p rest ih =>
      obtain ⟨k', v'⟩ := p
      by_cases hk : k' = k
      · simp [dictInsert, hk]
      · simp only [dictInsert, if_neg hk, List.length_cons]
        omega

theorem dictDelete_length_le {α : Type} (d : List (String × α))
    (k : String) : (dictDelete d k).length ≤ d.length := by
  induction d with
  | nil => simp [dictDelete]
  | cons p rest ih =>
      obtain ⟨k', v'⟩ := p
      by_cases hk : k' = k
      · simp only [dictDelete, if_pos hk, List.length_cons]
        omega
      · simp only [dictDelete, if_neg hk, List.length_cons]
        omega

theorem dictLookup_dictDelete_self {α : Type} (d : List (String × α))
    (k : String) : dictLookup (dictDelete d k) k = none := by
  induction d with
  | nil => simp [dictDelete, dictLookup]
  | cons p rest ih =>
      obtain ⟨k', v'⟩ := p
      by_cases hk : k' = k
      · simp [dictDelete, hk, ih]
      · simp [dictDelete, dictLookup, hk, ih]

theorem dictLookup_dictDelete_ne {α : Type} (d : List (String × α))
    (k k' : String) (h : k' ≠ k) :
    dictLookup (dictDelete d k) k' = dictLookup d k' := by
  induction d with
  | nil => simp [dictDelete]
  | cons p rest ih =>
      obtain ⟨k'', v''⟩ := p
      by_cases hk : k'' = k
      · subst hk
        have : ¬ k'' = k' := fun hc => h (hc.symm)
        simp [dictDelete, dictLookup, this, ih]
      · simp [dictDelete, dictLookup, hk, ih]

theorem dictDelete_sublist {α : Type} (d : List (String × α)) (k : String) :
    List.Sublist (dictDelete d k) d := by
  induction d with
  | nil => simp [dictDelete]
  | cons p rest ih =>
      obtain ⟨k', v'⟩ := p
      by_cases hk : k' = k
      · simp only [dictDelete, if_pos hk]
        exact List.Sublist.cons _ ih
      · simp only [dictDelete, if_neg hk]
        exact List.Sublist.cons₂ _ ih

theorem dictDelete_eq_self_of_not_mem {α : Type} (d : List (String × α))
    (k : String) (h : k ∉ d.map Prod.fst) : dictDelete d k = d := by
  induction d with
  | nil => simp [dictDelete]
  | cons p rest ih =>
      obtain ⟨k', v'⟩ := p
      simp only [List.map_cons, List.mem_cons] at h
      push_neg at h
      have hk : ¬ k' = k := fun hc => h.1 (hc.symm)
      simp [dictDelete, hk, ih h.2]

theorem dictContains_eq_false_iff {α : Type} (d : List (String × α))
    (k : String) : dictContains d k = false ↔ dictLookup d k = none := by
  unfold dictContains
  cases h : dictLookup d k <;> simp [Option.isSome]

theorem dictContains_eq_true_iff {α : Type} (d : List (String × α))
    (k : String) : dictContains d k = true ↔ ∃ v, dictLookup d k = some v := by
  unfold dictContains
  cases h : dictLookup d k <;> simp [Option.isSome]

/-! ### `_add_to_cache` lemmas -/

theorem add_to_cache_cache_size {α : Type} (l : ModelLoader α) (k : String)
    (v : α) : (l._add_to_cache k v).1.cache_size = l.cache_size := by
  unfold ModelLoader._add_to_cache
  by_cases hle : l.cache_size ≤ l.cache.length
  · rw [if_pos hle]
    cases hc : l.cache with
    | nil => rfl
    | cons p rest => obtain ⟨k0, v0⟩ := p; rfl
  · rw [if_neg hle]

theorem add_to_cache_no_error {α : Type} (l : ModelLoader α) (k : String)
    (v : α) (hcap : 1 ≤ l.cache_size) : (l._add_to_cache k v).2 = none := by
  unfold ModelLoader._add_to_cache
  by_cases hle : l.cache_size ≤ l.cache.length
  · rw [if_pos hle]
    cases hc : l.cache with
    | nil => rw [hc] at hle; simp at hle; omega
    | cons p rest => obtain ⟨k0, v0⟩ := p; rfl
  · rw [if_neg hle]

theorem add_to_cache_lookup_self {α : Type} (l : ModelLoader α) (k : String)
    (v : α) (hcap : 1 ≤ l.cache_size) :
    dictLookup (l._add_to_cache k v).1.cache k = some v := by
  unfold ModelLoader._add_to_cache
  by_cases hle : l.cache_size ≤ l.cache.length
  · rw [if_pos hle]
    cases hc : l.cache with
    | nil => rw [hc] at hle; simp at hle; omega
    | cons p rest =>
        obtain ⟨k0, v0⟩ := p
        exact dictLookup_dictInsert_self _ k v
  · rw [if_neg hle]
    exact dictLookup_dictInsert_self _ k v

theorem add_to_cache_length {α : Type} (l : ModelLoader α) (k : String)
    (v : α) (hinv : l.cache.length ≤ l.cache_size) :
    (l._add_to_cache k v).1.cache.length ≤ l.cache_size := by
  unfold ModelLoader._add_to_cache
  by_cases hle : l.cache_size ≤ l.cache.length
  · rw [if_pos hle]
    cases hc : l.cache with
    | nil => simpa using hinv
    | cons p rest =>
        obtain ⟨k0, v0⟩ := p
        show (dictInsert (dictDelete ((k0, v0) :: rest) k0) k v).length ≤
          l.cache_size
        have h2 : dictDelete ((k0, v0) :: rest) k0 = dictDelete rest k0 := by
          simp [dictDelete]
        rw [h2]
        have h1 : (dictInsert (dictDelete rest k0) k v).length ≤
            (dictDelete rest k0).length + 1 := dictInsert_length_le _ k v
        have h3 : (dictDelete rest k0).length ≤ rest.length :=
          dictDelete_length_le rest k0
        have h4 : ((k0, v0) :: rest).length ≤ l.cache_size := by
          rw [hc] at hinv; exact hinv
        simp only [List.length_cons] at h4
        omega
  · rw [if_neg hle]
    show (dictInsert l.cache k v).length ≤ l.cache_size
    have h1 : (dictInsert l.cache k v).length ≤ l.cache.length + 1 :=
      dictInsert_length_le _ k v
    omega

/-! ### `load_model` branch lemmas -/

theorem load_model_hit {α : Type} (l : ModelLoader α) (env : LoadEnv α)
    (fp mid : String) (m : α) (h : dictLookup l.cache mid = some m) :
    l.load_model env fp mid = ⟨l, .ok m, []⟩ := by
  unfold ModelLoader.load_model
  rw [h]

theorem load_model_not_found {α : Type} (l : ModelLoader α) (env : LoadEnv α)
    (fp mid : String) (hmiss : dictLookup l.cache mid = none)
    (hex : env.path_exists = false) :
    l.load_model env fp mid =
      ⟨l, .error (.fileNotFound ("Model file not found: " ++ fp)),
       [.pathCheck]⟩ := by
  unfold ModelLoader.load_model
  rw [hmiss]
  simp [hex]

theorem load_model_miss_joblib_ok {α : Type} (l : ModelLoader α)
    (env : LoadEnv α) (fp mid : String) (m : α)
    (hmiss : dictLookup l.cache mid = none) (hex : env.path_exists = true)
    (hj : env.joblib_result = .ok m) (hcap : 1 ≤ l.cache_size) :
    l.load_model env fp mid =
      ⟨(l._add_to_cache mid m).1, .ok m, [.pathCheck, .joblibLoad]⟩ := by
  unfold ModelLoader.load_model
  rw [hmiss]
  simp only [hex, Bool.true_eq_false, if_false, hj]
  rw [add_to_cache_no_error l mid m hcap]

theorem load_model_miss_pickle_ok {α : Type} (l : ModelLoader α)
    (env : LoadEnv α) (fp mid : String) (m : α) (jerr : String)
    (hmiss : dictLookup l.cache mid = none) (hex : env.path_exists = true)
    (hj : env.joblib_result = .error jerr) (hp : env.pickle_result = .ok m)
    (hcap : 1 ≤ l.cache_size) :
    l.load_model env fp mid =
      ⟨(l._add_to_cache mid m).1, .ok m,
       [.pathCheck, .joblibLoad, .pickleLoad]⟩ := by
  unfold ModelLoader.load_model
  rw [hmiss]
  simp only [hex, Bool.true_eq_false, if_false, hj, hp]
  rw [add_to_cache_no_error l mid m hcap]

theorem load_model_miss_both_fail {α : Type} (l : ModelLoader α)
    (env : LoadEnv α) (fp mid : String) (jerr perr : String)
    (hmiss : dictLookup l.cache mid = none) (hex : env.path_exists = true)
    (hj : env.joblib_result = .error jerr)
    (hp : env.pickle_result = .error perr) :
    l.load_model env fp mid =
      ⟨l,
       .error (.bothFailed
         ("Failed to load model with both joblib and pickle. Joblib: "
           ++ jerr ++ ", Pickle: " ++ perr)),
       [.pathCheck, .joblibLoad, .pickleLoad]⟩ := by
  unfold ModelLoader.load_model
  rw [hmiss]
  simp only [hex, Bool.true_eq_false, if_false, hj, hp]

/-! ### Derived `load_model` lemmas -/

theorem load_model_loader_cache_size {α : Type} (l : ModelLoader α)
    (env : LoadEnv α) (fp mid : String) :
    (l.load_model env fp mid).loader.cache_size = l.cache_size := by
  cases hl : dictLookup l.cache mid with
  | some m => rw [load_model_hit l env fp mid m hl]
  | none =>
      cases hex : env.path_exists with
      | false => rw [load_model_not_found l env fp mid hl hex]
      | true =>
          unfold ModelLoader.load_model
          rw [hl]
          simp only [hex, Bool.true_eq_false, if_false]
          cases hj : env.joblib_result with
          | ok m =>
              cases h2 : (l._add_to_cache mid m).2 <;>
                simpa [h2] using add_to_cache_cache_size l mid m
          | error jerr =>
              cases hp : env.pickle_result with
              | ok m =>
                  cases h2 : (l._add_to_cache mid m).2 <;>
                    simpa [h2] using add_to_cache_cache_size l mid m
              | error perr => rfl

theorem load_model_loader_length {α : Type} (l : ModelLoader α)
    (env : LoadEnv α) (fp mid : String)
    (hinv : l.cache.length ≤ l.cache_size) :
    (l.load_model env fp mid).loader.cache.length ≤ l.cache_size := by
  cases hl : dictLookup l.cache mid with
  | some m => rw [load_model_hit l env fp mid m hl]; exact hinv
  | none =>
      cases hex : env.path_exists with
      | false => rw [load_model_not_found l env fp mid hl hex]; exact hinv
      | true =>
          unfold ModelLoader.load_model
          rw [hl]
          simp only [hex, Bool.true_eq_false, if_false]
          cases hj : env.joblib_result with
          | ok m =>
              cases h2 : (l._add_to_cache mid m).2 <;>
                simpa [h2] using add_to_cache_length l mid m hinv
          | error jerr =>
              cases hp : env.pickle_result with
              | ok m =>
                  cases h2 : (l._add_to_cache mid m).2 <;>
                    simpa [h2] using add_to_cache_length l mid m hinv
              | error perr => exact hinv

theorem load_model_error_loader_eq {α : Type} (l : ModelLoader α)
    (env : LoadEnv α) (fp mid : String) (e : LoadError)
    (hcap : 1 ≤ l.cache_size)
    (hfail : (l.load_model env fp mid).result = .error e) :
    (l.load_model env fp mid).loader = l := by
  cases hl : dictLookup l.cache mid with
  | some m => rw [load_model_hit l env fp mid m hl]
  | none =>
      cases hex : env.path_exists with
      | false => rw [load_model_not_found l env fp mid hl hex]
      | true =>
          cases hj : env.joblib_result with
          | ok m =>
              rw [load_model_miss_joblib_ok l env fp mid m hl hex hj hcap]
                at hfail
              exact absurd hfail (by simp)
          | error jerr =>
              cases hp : env.pickle_result with
              | ok m =>
                  rw [load_model_miss_pickle_ok l env fp mid m jerr hl hex hj
                    hp hcap] at hfail
                  exact absurd hfail (by simp)
              | error perr =>
                  rw [load_model_miss_both_fail l env fp mid jerr perr hl hex
                    hj hp]

theorem load_model_miss_success_result {α : Type} (l : ModelLoader α)
    (env : LoadEnv α) (fp mid : String) (m : α)
    (hmiss : dictLookup l.cache mid = none) (hex : env.path_exists = true)
    (hm : loadedModel env = some m) (hcap : 1 ≤ l.cache_size) :
    (l.load_model env fp mid).result = .ok m ∧
      (l.load_model env fp mid).loader = (l._add_to_cache mid m).1 := by
  cases hj : env.joblib_result with
  | ok m0 =>
      have hm0 : m0 = m := by
        unfold loadedModel at hm; rw [hj] at hm
        exact Option.some.inj hm
      subst hm0
      rw [load_model_miss_joblib_ok l env fp mid m0 hmiss hex hj hcap]
      exact ⟨rfl, rfl⟩
  | error jerr =>
      cases hp : env.pickle_result with
      | ok m0 =>
          have hm0 : m0 = m := by
            unfold loadedModel at hm; rw [hj, hp] at hm
            exact Option.some.inj hm
          subst hm0
          rw [load_model_miss_pickle_ok l env fp mid m0 jerr hmiss hex hj hp
            hcap]
          exact ⟨rfl, rfl⟩
      | error perr =>
          unfold loadedModel at hm
          rw [hj, hp] at hm
          exact absurd hm (by simp)

theorem dictLookup_mem_keys {α : Type} (d : List (String × α))
    (k : String) (m : α) (h : dictLookup d k = some m) :
    k ∈ d.map Prod.fst := by
  by_contra hmem
  rw [← dictLookup_eq_none_iff] at hmem
  rw [h] at hmem
  exact Option.noConfusion hmem

theorem loadSucceeds_loadedModel {α : Type} (env : LoadEnv α)
    (h : loadSucceeds env) : ∃ m, loadedModel env = some m := by
  obtain ⟨hex, hok⟩ := h
  cases hj : env.joblib_result with
  | ok m => exact ⟨m, by unfold loadedModel; rw [hj]⟩
  | error jerr =>
      cases hp : env.pickle_result with
      | ok m => exact ⟨m, by unfold loadedModel; rw [hj, hp]⟩
      | error perr =>
          rcases hok with h1 | h1
          · rw [hj] at h1; simp [Except.isOk, Except.toBool] at h1
          · rw [hp] at h1; simp [Except.isOk, Except.toBool] at h1

theorem add_to_cache_keys {α : Type} (l : ModelLoader α) (k : String) (v : α)
    (hnodup : (l.cache.map Prod.fst).Nodup) (hcap : 1 ≤ l.cache_size)
    (hmiss : dictLookup l.cache k = none) :
    (l._add_to_cache k v).1.cache.map Prod.fst =
      fifoKeysStep l.cache_size (l.cache.map Prod.fst) k := by
  have hmem : k ∉ l.cache.map Prod.fst := (dictLookup_eq_none_iff _ _).1 hmiss
  unfold ModelLoader._add_to_cache fifoKeysStep
  by_cases hle : l.cache_size ≤ l.cache.length
  · rw [if_pos hle]
    cases hc : l.cache with
    | nil => rw [hc] at hle; simp at hle; omega
    | cons p rest =>
        obtain ⟨k0, v0⟩ := p
        rw [hc] at hmem hnodup hle
        simp only [List.map_cons, List.mem_cons, List.nodup_cons] at hmem hnodup
        push_neg at hmem
        have hrest : dictLookup rest k = none :=
          (dictLookup_eq_none_iff rest k).2 hmem.2
        have hd : dictDelete ((k0, v0) :: rest) k0 = rest := by
          have h1 : dictDelete ((k0, v0) :: rest) k0 = dictDelete rest k0 := by
            simp [dictDelete]
          rw [h1]
          exact dictDelete_eq_self_of_not_mem rest k0 hnodup.1
        have hins : dictInsert rest k v = rest ++ [(k, v)] :=
          dictInsert_of_lookup_none rest k v hrest
        simp only [hd, hins]
        have hnotmem : k ∉ List.map Prod.fst ((k0, v0) :: rest) := by
          simp only [List.map_cons, List.mem_cons]
          push_neg
          exact ⟨hmem.1, hmem.2⟩
        rw [if_neg hnotmem]
        have hle2 : l.cache_size ≤ (List.map Prod.fst ((k0, v0) :: rest)).length := by
          simpa using hle
        rw [if_pos hle2]
        simp
  · rw [if_neg hle]
    have hins : dictInsert l.cache k v = l.cache ++ [(k, v)] :=
      dictInsert_of_lookup_none l.cache k v hmiss
    have hle2 : ¬ l.cache_size ≤ (List.map Prod.fst l.cache).length := by
      simpa using hle
    show List.map Prod.fst (dictInsert l.cache k v) = _
    rw [hins, if_neg hmem, if_neg hle2]
    simp

theorem load_model_miss_events_head {α : Type} (l : ModelLoader α)
    (env : LoadEnv α) (fp mid : String)
    (hmiss : dictLookup l.cache mid = none) :
    (l.load_model env fp mid).events.head? = some .pathCheck := by
  cases hex : env.path_exists with
  | false => rw [load_model_not_found l env fp mid hmiss hex]; rfl
  | true =>
      unfold ModelLoader.load_model
      rw [hmiss]
      simp only [hex, Bool.true_eq_false, if_false]
      cases hj : env.joblib_result with
      | ok m => cases h2 : (l._add_to_cache mid m).2 <;> simp [h2]
      | error jerr =>
          cases hp : env.pickle_result with
          | ok m => cases h2 : (l._add_to_cache mid m).2 <;> simp [h2]
          | error perr => rfl

/-! ### Invariant preservation over call sequences -/

theorem runOp_cache_size {α : Type} (l : ModelLoader α) (op : Op α) :
    (runOp l op).cache_size = l.cache_size := by
  cases op with
  | load env fp mid => exact load_model_loader_cache_size l env fp mid
  | remove mid =>
      unfold runOp ModelLoader.remove_from_cache
      by_cases h : dictContains l.cache mid <;> simp [h]
  | clear => rfl

theorem runOp_length {α : Type} (l : ModelLoader α) (op : Op α)
    (hinv : l.cache.length ≤ l.cache_size) :
    (runOp l op).cache.length ≤ l.cache_size := by
  cases op with
  | load env fp mid => exact load_model_loader_length l env fp mid hinv
  | remove mid =>
      unfold runOp ModelLoader.remove_from_cache
      by_cases h : dictContains l.cache mid
      · simp only [h, if_true]
        have := dictDelete_length_le l.cache mid
        omega
      · simp only [h, Bool.false_eq_true, if_false]
        exact hinv
  | clear =>
      show ([] : List (String × α)).length ≤ l.cache_size
      simp

theorem runOps_invariant {α : Type} (ops : List (Op α)) :
    ∀ l : ModelLoader α, l.cache.length ≤ l.cache_size →
      (runOps l ops).cache.length ≤ (runOps l ops).cache_size ∧
        (runOps l ops).cache_size = l.cache_size := by
  induction ops with
  | nil => intro l h; exact ⟨h, rfl⟩
  | cons op rest ih =>
      intro l h
      have h1 : (runOp l op).cache.length ≤ (runOp l op).cache_size := by
        rw [runOp_cache_size]
        exact runOp_length l op h
      have h2 := ih (runOp l op) h1
      refine ⟨?_, ?_⟩
      · simpa [runOps, List.foldl] using h2.1
      · have h3 : (runOps (runOp l op) rest).cache_size =
            (runOp l op).cache_size := h2.2
        have h4 : runOps l (op :: rest) = runOps (runOp l op) rest := rfl
        rw [h4, h3, runOp_cache_size]

/-! ### Claim theorems -/

/-- The final state of the spec's capacity-2 scenario: loads of A, B, A, C,
all succeeding. -/
def lruScenarioFinal : ModelLoader Nat :=
  runOps (mkModelLoader Nat 2)
    [.load (envOk 1) "a.pkl" "A", .load (envOk 2) "b.pkl" "B",
     .load (envOk 1) "a.pkl" "A", .load (envOk 3) "c.pkl" "C"]

/-- Claim C1, evaluated on the code at the claimed scenario: with capacity 2
and the call sequence load A, load B, load A, load C (all loads
succeeding), the cache ends as `[B, C]` — the code evicts A, the
oldest-inserted key (the hit on A does not promote it), so B remains
cached and A does not, contradicting the claimed LRU outcome
(`is_model_cached B = false`, `is_model_cached A = true`). -/
theorem capacity_two_scenario_keeps_B_evicts_A :
    lruScenarioFinal.is_model_cached "B" = true ∧
    lruScenarioFinal.is_model_cached "A" = false ∧
    lruScenarioFinal.is_model_cached "C" = true ∧
    lruScenarioFinal.cache = [("B", 2), ("C", 3)] := by
  refine ⟨rfl, rfl, rfl, rfl⟩

/-- Claim C2: for every loader constructed with capacity at least 1 and
every finite sequence of load_model (succeeding or failing),
remove_from_cache and clear_cache calls, the number of entries resident in
the cache never exceeds the capacity. -/
theorem cache_never_exceeds_capacity (α : Type) (n : Nat) (hn : 1 ≤ n)
    (ops : List (Op α)) :
    (runOps (mkModelLoader α n) ops).cache.length ≤ n := by
  have h := runOps_invariant ops (mkModelLoader α n)
    (by show ([] : List (String × α)).length ≤ n; simp)
  calc (runOps (mkModelLoader α n) ops).cache.length
      ≤ (runOps (mkModelLoader α n) ops).cache_size := h.1
    _ = n := h.2

theorem cache_never_exceeds_capacity_witness :
    (runOps (mkModelLoader Nat 2)
      [.load (envOk 1) "a" "A", .load (envOk 2) "b" "B",
       .load (envOk 3) "c" "C"]).cache.length ≤ 2 :=
  cache_never_exceeds_capacity Nat 2 (by decide)
    [.load (envOk 1) "a" "A", .load (envOk 2) "b" "B",
     .load (envOk 3) "c" "C"]

/-- Claim C3: the cache refines a bounded FIFO (insertion-order) map: a
cache hit leaves the loader (contents and order) unchanged, and the key
list evolves by the FIFO step — in particular, a successful load with the
cache at capacity evicts exactly the oldest-inserted key, irrespective of
accesses since insertion. -/
theorem cache_refines_bounded_fifo (α : Type) (l : ModelLoader α)
    (env : LoadEnv α) (fp mid : String)
    (hnodup : (l.cache.map Prod.fst).Nodup) (hcap : 1 ≤ l.cache_size) :
    (l.is_model_cached mid = true → (l.load_model env fp mid).loader = l) ∧
    (loadSucceeds env →
      cacheKeys (l.load_model env fp mid).loader =
        fifoKeysStep l.cache_size (cacheKeys l) mid) := by
  constructor
  · intro hhit
    obtain ⟨m, hm⟩ := (dictContains_eq_true_iff l.cache mid).1 hhit
    rw [load_model_hit l env fp mid m hm]
  · intro hsucc
    cases hl : dictLookup l.cache mid with
    | some m =>
        rw [load_model_hit l env fp mid m hl]
        have hmem : mid ∈ l.cache.map Prod.fst :=
          dictLookup_mem_keys l.cache mid m hl
        unfold cacheKeys fifoKeysStep
        rw [if_pos hmem]
    | none =>
        obtain ⟨m, hm⟩ := loadSucceeds_loadedModel env hsucc
        have hres := load_model_miss_success_result l env fp mid m hl
          hsucc.1 hm hcap
        rw [hres.2]
        exact add_to_cache_keys l mid m hnodup hcap hl

theorem cache_refines_bounded_fifo_witness :
    cacheKeys (ModelLoader.load_model
        (⟨2, [("A", 1), ("B", 2)]⟩ : ModelLoader Nat) (envOk 3) "c" "C").loader =
      fifoKeysStep 2 (cacheKeys (⟨2, [("A", 1), ("B", 2)]⟩ : ModelLoader Nat)) "C" :=
  (cache_refines_bounded_fifo Nat ⟨2, [("A", 1), ("B", 2)]⟩ (envOk 3) "c" "C"
    (by decide) (by decide)).2 ⟨rfl, Or.inl rfl⟩

/-- Claim C4: if an identifier is resident in the cache (it was loaded
successfully and not since evicted or cleared), a subsequent load_model
for it returns exactly the cached model object, performs no backend call
(no path check, no deserialization — no I/O), and leaves the cache state
unchanged. -/
theorem cache_hit_no_io (α : Type) (l : ModelLoader α) (env : LoadEnv α)
    (fp mid : String) (m : α) (h : dictLookup l.cache mid = some m) :
    l.load_model env fp mid = ⟨l, .ok m, []⟩ :=
  load_model_hit l env fp mid m h

theorem cache_hit_no_io_witness :
    ModelLoader.load_model (⟨2, [("A", 5)]⟩ : ModelLoader Nat) (envOk 9)
      "p" "A" = ⟨⟨2, [("A", 5)]⟩, .ok 5, []⟩ :=
  cache_hit_no_io Nat ⟨2, [("A", 5)]⟩ (envOk 9) "p" "A" 5 rfl

/-- Claim C5: on a cache miss with an existing artifact, load_model tries
joblib first (pickle is not invoked when joblib succeeds); pickle is tried
only after joblib fails; the call succeeds if either deserializer
succeeds; and when both fail it raises an error whose message describes
both underlying failures. -/
theorem deserializer_fallback_order (α : Type) (l : ModelLoader α)
    (env : LoadEnv α) (fp mid : String)
    (hmiss : dictLookup l.cache mid = none) (hex : env.path_exists = true)
    (hcap : 1 ≤ l.cache_size) :
    (∀ m, env.joblib_result = .ok m →
      (l.load_model env fp mid).result = .ok m ∧
        (l.load_model env fp mid).events = [.pathCheck, .joblibLoad]) ∧
    (∀ jerr m, env.joblib_result = .error jerr →
      env.pickle_result = .ok m →
      (l.load_model env fp mid).result = .ok m ∧
        (l.load_model env fp mid).events =
          [.pathCheck, .joblibLoad, .pickleLoad]) ∧
    (∀ jerr perr, env.joblib_result = .error jerr →
      env.pickle_result = .error perr →
      (l.load_model env fp mid).result = .error (.bothFailed
        ("Failed to load model with both joblib and pickle. Joblib: "
          ++ jerr ++ ", Pickle: " ++ perr))) := by
  refine ⟨?_, ?_, ?_⟩
  · intro m hj
    rw [load_model_miss_joblib_ok l env fp mid m hmiss hex hj hcap]
    exact ⟨rfl, rfl⟩
  · intro jerr m hj hp
    rw [load_model_miss_pickle_ok l env fp mid m jerr hmiss hex hj hp hcap]
    exact ⟨rfl, rfl⟩
  · intro jerr perr hj hp
    rw [load_model_miss_both_fail l env fp mid jerr perr hmiss hex hj hp]

theorem deserializer_fallback_order_witness :
    (ModelLoader.load_model (mkModelLoader Nat 5)
        (⟨true, .error "bad joblib", .ok 7⟩ : LoadEnv Nat) "p" "M").result
      = .ok 7 :=
  ((deserializer_fallback_order Nat (mkModelLoader Nat 5)
    ⟨true, .error "bad joblib", .ok 7⟩ "p" "M" rfl rfl
    (by decide)).2.1 "bad joblib" 7 rfl rfl).1

/-- Claim C6: a failed load of an uncached identifier leaves the cache
state unchanged — in particular the identifier is still not cached — and a
subsequent load_model for it retries the load and succeeds whenever that
retry's load succeeds. -/
theorem failed_load_not_cached_retry (α : Type) (l : ModelLoader α)
    (env env2 : LoadEnv α) (fp fp2 mid : String) (e : LoadError) (m : α)
    (hmiss : dictLookup l.cache mid = none)
    (hfail : (l.load_model env fp mid).result = .error e)
    (hcap : 1 ≤ l.cache_size)
    (hex2 : env2.path_exists = true) (hm2 : loadedModel env2 = some m) :
    (l.load_model env fp mid).loader = l ∧
    ModelLoader.is_model_cached (l.load_model env fp mid).loader mid
      = false ∧
    LoadResult.result
      (ModelLoader.load_model (l.load_model env fp mid).loader env2 fp2 mid)
      = .ok m ∧
    ModelLoader.is_model_cached
      (LoadResult.loader
        (ModelLoader.load_model (l.load_model env fp mid).loader env2 fp2
          mid)) mid = true := by
  have heq : (l.load_model env fp mid).loader = l :=
    load_model_error_loader_eq l env fp mid e hcap hfail
  refine ⟨heq, ?_, ?_, ?_⟩
  · rw [heq]
    exact (dictContains_eq_false_iff l.cache mid).2 hmiss
  · rw [heq]
    exact (load_model_miss_success_result l env2 fp2 mid m hmiss hex2 hm2
      hcap).1
  · rw [heq]
    have hres := load_model_miss_success_result l env2 fp2 mid m hmiss hex2
      hm2 hcap
    rw [hres.2]
    show dictContains (l._add_to_cache mid m).1.cache mid = true
    rw [(dictContains_eq_true_iff _ _).2
      ⟨m, add_to_cache_lookup_self l mid m hcap⟩]

theorem failed_load_not_cached_retry_witness :
    ((mkModelLoader Nat 5).load_model
        (⟨false, .error "e", .error "e"⟩ : LoadEnv Nat) "p" "X").loader
      = mkModelLoader Nat 5 ∧
    LoadResult.result
      (ModelLoader.load_model
        (((mkModelLoader Nat 5).load_model
          (⟨false, .error "e", .error "e"⟩ : LoadEnv Nat) "p" "X").loader)
        (envOk 4) "p" "X") = .ok 4 := by
  have h := failed_load_not_cached_retry Nat (mkModelLoader Nat 5)
    ⟨false, .error "e", .error "e"⟩ (envOk 4) "p" "p" "X"
    (.fileNotFound ("Model file not found: " ++ "p")) 4 rfl rfl
    (by decide) rfl rfl
  exact ⟨h.1, h.2.2.1⟩

/-- Claim C7: for an uncached identifier whose path does not resolve to an
existing file, load_model raises the file-not-found error without invoking
either deserializer (the only backend event is the path check), the raised
error carries the exact message built from the path, and the cache state
is unchanged — the error reaches the caller unchanged (the outer handler
only logs and re-raises). -/
theorem missing_file_error_no_deserialization (α : Type) (l : ModelLoader α)
    (env : LoadEnv α) (fp mid : String)
    (hmiss : dictLookup l.cache mid = none)
    (hex : env.path_exists = false) :
    l.load_model env fp mid =
      ⟨l, .error (.fileNotFound ("Model file not found: " ++ fp)),
       [.pathCheck]⟩ :=
  load_model_not_found l env fp mid hmiss hex

theorem missing_file_error_no_deserialization_witness :
    ModelLoader.load_model (mkModelLoader Nat 5)
        (⟨false, .ok 1, .ok 1⟩ : LoadEnv Nat) "missing.pkl" "X" =
      ⟨mkModelLoader Nat 5,
       .error (.fileNotFound ("Model file not found: " ++ "missing.pkl")),
       [.pathCheck]⟩ :=
  missing_file_error_no_deserialization Nat (mkModelLoader Nat 5)
    ⟨false, .ok 1, .ok 1⟩ "missing.pkl" "X" rfl rfl

/-- Claim C8: remove_from_cache removes the entry when present (the
identifier is not cached afterwards), never raises when the identifier is
absent (it is a total no-op returning the state unchanged), keeps the
capacity, leaves every other entry's binding unchanged, and preserves the
relative order of the remaining entries (the result is a sublist of the
original cache). -/
theorem remove_from_cache_spec (α : Type) (l : ModelLoader α)
    (mid : String) :
    (l.remove_from_cache mid).is_model_cached mid = false ∧
    (l.remove_from_cache mid).cache_size = l.cache_size ∧
    (∀ k, k ≠ mid →
      dictLookup (l.remove_from_cache mid).cache k = dictLookup l.cache k) ∧
    List.Sublist (l.remove_from_cache mid).cache l.cache ∧
    (l.is_model_cached mid = false → l.remove_from_cache mid = l) := by
  unfold ModelLoader.remove_from_cache ModelLoader.is_model_cached
  by_cases hc : dictContains l.cache mid
  · rw [if_pos hc]
    refine ⟨?_, rfl, ?_, ?_, ?_⟩
    · exact (dictContains_eq_false_iff _ _).2
        (dictLookup_dictDelete_self l.cache mid)
    · intro k hk
      exact dictLookup_dictDelete_ne l.cache mid k hk
    · exact dictDelete_sublist l.cache mid
    · intro habs
      rw [hc] at habs
      exact absurd habs (by simp)
  · rw [if_neg hc]
    have hc2 : dictContains l.cache mid = false := by
      cases h : dictContains l.cache mid
      · rfl
      · exact absurd h hc
    exact ⟨hc2, rfl, fun k hk => rfl, List.Sublist.refl l.cache,
      fun _ => rfl⟩

theorem remove_from_cache_spec_witness :
    ModelLoader.remove_from_cache (⟨2, [("A", 1)]⟩ : ModelLoader Nat) "B"
      = ⟨2, [("A", 1)]⟩ ∧
    ModelLoader.is_model_cached
      (ModelLoader.remove_from_cache
        (⟨2, [("A", 1), ("B", 2)]⟩ : ModelLoader Nat) "B") "B" = false ∧
    dictLookup (ModelLoader.remove_from_cache
      (⟨2, [("A", 1), ("B", 2)]⟩ : ModelLoader Nat) "B").cache "A"
      = some 1 :=
  ⟨(remove_from_cache_spec Nat ⟨2, [("A", 1)]⟩ "B").2.2.2.2 rfl,
   (remove_from_cache_spec Nat ⟨2, [("A", 1), ("B", 2)]⟩ "B").1,
   (remove_from_cache_spec Nat ⟨2, [("A", 1), ("B", 2)]⟩ "B").2.2.1 "A"
     (by decide)⟩

/-- Claim C9: after clear_cache the cache is empty — is_model_cached is
false for every identifier — and the next load_model for any identifier
takes the miss path (its first backend event is the path check) and, when
that load succeeds, performs a fresh load returning the newly loaded
model. -/
theorem clear_cache_empties (α : Type) (l : ModelLoader α)
    (env : LoadEnv α) (fp mid : String) (m : α)
    (hcap : 1 ≤ l.cache_size) (hex : env.path_exists = true)
    (hm : loadedModel env = some m) :
    l.clear_cache.is_model_cached mid = false ∧
    (l.clear_cache.load_model env fp mid).events.head? = some .pathCheck ∧
    (l.clear_cache.load_model env fp mid).result = .ok m := by
  have hmiss : dictLookup l.clear_cache.cache mid = none := rfl
  refine ⟨rfl, ?_, ?_⟩
  · exact load_model_miss_events_head l.clear_cache env fp mid hmiss
  · exact (load_model_miss_success_result l.clear_cache env fp mid m hmiss
      hex hm hcap).1

theorem clear_cache_empties_witness :
    ModelLoader.is_model_cached
      (ModelLoader.clear_cache
        (⟨2, [("A", 1), ("B", 2)]⟩ : ModelLoader Nat)) "A" = false ∧
    LoadResult.result
      (ModelLoader.load_model
        (ModelLoader.clear_cache
          (⟨2, [("A", 1), ("B", 2)]⟩ : ModelLoader Nat))
        (envOk 8) "p" "A") = .ok 8 := by
  have h := clear_cache_empties Nat ⟨2, [("A", 1), ("B", 2)]⟩ (envOk 8)
    "p" "A" 8 (by decide) rfl rfl
  exact ⟨h.1, h.2.2⟩

/-- Claim C10: with capacity at least 1, the eviction branch of
_add_to_cache always runs on a non-empty cache, so `next(iter(...))` is
well-defined and never raises (no StopIteration error), and a miss-path
load whose deserialization succeeds returns the model; this precondition
is necessary: with capacity 0 the eviction branch runs on the empty
cache, and a load_model call whose deserialization succeeds still fails
with the StopIteration error instead of returning the model. -/
theorem eviction_safe_iff_positive_capacity (α : Type) (l : ModelLoader α)
    (mid : String) (m : α) (hcap : 1 ≤ l.cache_size) :
    (l._add_to_cache mid m).2 = none ∧
    (∀ env : LoadEnv α, ∀ fp, dictLookup l.cache mid = none →
      env.path_exists = true → loadedModel env = some m →
      (l.load_model env fp mid).result = .ok m) ∧
    ((mkModelLoader Nat 0).load_model (envOk 1) "model.pkl" "X").result
      = .error .stopIteration ∧
    ((mkModelLoader Nat 0)._add_to_cache "X" 1).2 = some .stopIteration := by
  refine ⟨add_to_cache_no_error l mid m hcap, ?_, rfl, rfl⟩
  intro env fp hmiss hex hm
  exact (load_model_miss_success_result l env fp mid m hmiss hex hm hcap).1

theorem eviction_safe_iff_positive_capacity_witness :
    ((⟨1, [("A", 1)]⟩ : ModelLoader Nat)._add_to_cache "X" 1).2 = none ∧
    ((mkModelLoader Nat 0).load_model (envOk 1) "model.pkl" "X").result
      = .error .stopIteration :=
  ⟨(eviction_safe_iff_positive_capacity Nat ⟨1, [("A", 1)]⟩ "X" 1
      (by decide)).1,
   (eviction_safe_iff_positive_capacity Nat ⟨1, [("A", 1)]⟩ "X" 1
      (by decide)).2.2.1⟩

end MLServing
